import Mathlib

/-!
Verification of the loss-computation and logging layer of the splade_project
trainers (src/splade/hf/trainers.py): contrastive cross-entropy with in-batch
negatives, distillation terms (margin-MSE and KL), sparsity regularization
(FLOPS surrogate, L1, L0 metric, anti-collapse), checkpoint restore, and the
metric accumulation and flush logic.

Tensors are embedded as functions out of Fin-indexed types over a linear
ordered field (instantiated at ℝ where the source uses softmax and logarithms,
and at ℚ for concrete evaluations). torch reductions (mean, sum) become Finset
sums divided by casts of the corresponding dimension.
-/

namespace Splade

/-- Dot product of two vectors of dimension D. -/
def dot {K : Type} [LinearOrderedField K] {D : ℕ} (u v : Fin D → K) : K :=
  ∑ d, u d * v d

/-- torch.bmm(queries, torch.permute(docs,[0,2,1])).squeeze(1) from
DistilTrainer.compute_loss / FirstStageTrainer.compute_loss: the score of each
query of the batch against each of its own N+1 candidate documents.  queries
holds the squeezed (B,1,D) query tensor as a (B,D) matrix. -/
def dualScores {K : Type} [LinearOrderedField K] {B N D : ℕ}
    (queries : Fin B → Fin D → K) (docs : Fin B → Fin (N+1) → Fin D → K) :
    Fin B → Fin (N+1) → K :=
  fun b c => ∑ d, queries b d * docs b c d

/-- Row index decomposition of the reshape in docs[:,1:,:].reshape(-1, D):
flat row r corresponds to batch element r / N and negative r % N. -/
def negRow {B N : ℕ} (r : Fin (B * N)) : Fin B × Fin N :=
  have hN : 0 < N := by
    rcases Nat.eq_zero_or_pos N with h | h
    · exact absurd r.isLt (by simp [h])
    · exact h
  (⟨(r : ℕ) / N, Nat.div_lt_of_lt_mul (Nat.mul_comm B N ▸ r.isLt)⟩,
   ⟨(r : ℕ) % N, Nat.mod_lt _ hN⟩)

/-- docs[:,1:,:].reshape(-1, docs.size(2)): the flattened matrix of all
negative document vectors of the whole batch (B * N rows of dimension D). -/
def negativesFlat {K : Type} [LinearOrderedField K] {B N D : ℕ}
    (docs : Fin B → Fin (N+1) → Fin D → K) : Fin (B * N) → Fin D → K :=
  fun r => docs (negRow r).1 (Fin.succ (negRow r).2)

/-- torch.matmul(queries.squeeze(1), negatives) with negatives the transpose of
negativesFlat: each query scored against every negative document of the batch. -/
def scoresNegative {K : Type} [LinearOrderedField K] {B N D : ℕ}
    (queries : Fin B → Fin D → K) (docs : Fin B → Fin (N+1) → Fin D → K) :
    Fin B → Fin (B * N) → K :=
  fun b r => ∑ d, queries b d * negativesFlat docs r d

/-- torch.cat([scores_positive, scores_negative], dim=1): column 0 is the score
of the query against its own positive (scores[:,:1]); the remaining B * N
columns are the scores against all in-batch negatives. -/
def allScores {K : Type} [LinearOrderedField K] {B N D : ℕ}
    (queries : Fin B → Fin D → K) (docs : Fin B → Fin (N+1) → Fin D → K) :
    Fin B → Fin (1 + B * N) → K :=
  fun b j =>
    if _h : (j : ℕ) = 0 then dualScores queries docs b ⟨0, Nat.succ_pos N⟩
    else scoresNegative queries docs b ⟨(j : ℕ) - 1, by have := j.isLt; omega⟩

/-- Modelled from the words of the specification, for comparison with
allScores: the per-query contrastive score row is the dot product of the query
with its own positive document (column 0) followed by its dot products with
every negative document vector of the whole batch. -/
def specContrastiveRow {K : Type} [LinearOrderedField K] {B N D : ℕ}
    (queries : Fin B → Fin D → K) (docs : Fin B → Fin (N+1) → Fin D → K) :
    Fin B → Fin (1 + B * N) → K :=
  fun b j =>
    if _h : (j : ℕ) = 0 then dot (queries b) (docs b ⟨0, Nat.succ_pos N⟩)
    else dot (queries b) (negativesFlat docs ⟨(j : ℕ) - 1, by have := j.isLt; omega⟩)

/-- The label used for every row of the contrastive loss: index 0. -/
def posLabel {B N : ℕ} : Fin (1 + B * N) := ⟨0, by omega⟩

/-- torch.softmax along the candidate dimension. -/
noncomputable def softmax {n : ℕ} (s : Fin n → ℝ) : Fin n → ℝ :=
  fun i => Real.exp (s i) / ∑ j, Real.exp (s j)

/-- torch.log_softmax along the candidate dimension. -/
noncomputable def logSoftmax {n : ℕ} (s : Fin n → ℝ) : Fin n → ℝ :=
  fun i => s i - Real.log (∑ j, Real.exp (s j))

/-- The per-row term of torch.nn.CrossEntropyLoss: the negative log-softmax of
the score row at the label index. -/
noncomputable def crossEntropyRow {n : ℕ} (s : Fin n → ℝ) (label : Fin n) : ℝ :=
  -(logSoftmax s label)

/-- torch.nn.CrossEntropyLoss() with its default mean reduction over the batch
(the trailing .mean() of the source acts on a scalar and is the identity). -/
noncomputable def ceLoss {B n : ℕ} (scores : Fin B → Fin n → ℝ)
    (labels : Fin B → Fin n) : ℝ :=
  (∑ b, crossEntropyRow (scores b) (labels b)) / B

/-- The contrastive cross-entropy of DistilTrainer.compute_loss and
FirstStageTrainer.compute_loss: self.ce_loss(all_scores, labels).mean() with
labels = torch.zeros(scores.size(0)).long(). -/
noncomputable def dualCeLoss {B N D : ℕ}
    (queries : Fin B → Fin D → ℝ) (docs : Fin B → Fin (N+1) → Fin D → ℝ) : ℝ :=
  ceLoss (allScores queries docs) (fun _ => posLabel)

/-- cross_encoder_scores.view(-1, n_negatives + 1) applied to the first logit
column of the cross-encoder output (RerankerTrainer, RerankerTrainer2). -/
def rerankerView {B N : ℕ} (logits : Fin (B * (N+1)) → ℝ) :
    Fin B → Fin (N+1) → ℝ :=
  fun b c => logits ⟨(b : ℕ) * (N+1) + (c : ℕ), by
    calc (b : ℕ) * (N+1) + (c : ℕ) < (b : ℕ) * (N+1) + (N+1) :=
          Nat.add_lt_add_left c.isLt _
      _ = ((b : ℕ) + 1) * (N+1) := by ring
      _ ≤ B * (N+1) := Nat.mul_le_mul_right _ b.isLt⟩

/-- The broadcast difference scores[:,:1] - scores[:,1:]: the margin of the
positive score over each negative score, per batch element. -/
def marginOf {K : Type} [LinearOrderedField K] {B N : ℕ}
    (scores : Fin B → Fin (N+1) → K) : Fin B → Fin N → K :=
  fun b j => scores b ⟨0, Nat.succ_pos N⟩ - scores b (Fin.succ j)

/-- The margin-MSE distillation term shared by RerankerTrainer2.compute_loss
and DistilTrainer.compute_loss:
self.mse_loss(diff_student, diff_teacher).mean(dim=1).mean(dim=0) with
reduction="none". -/
def mseMarginDistil {K : Type} [LinearOrderedField K] {B N : ℕ}
    (student teacher : Fin B → Fin (N+1) → K) : K :=
  (∑ b, (∑ j, (marginOf student b j - marginOf teacher b j) ^ 2) / N) / B

/-- The pointwise term of torch.nn.KLDivLoss(reduction="none") at a
log-probability input and a probability target: xlogy(target, target) minus
target * input. -/
noncomputable def klPointwise (input target : ℝ) : ℝ :=
  (if target = 0 then 0 else target * Real.log target) - target * input

/-- The KL distillation term shared by RerankerTrainer2.compute_loss and
DistilTrainer.compute_loss:
self.distil_loss(log_softmax(student), softmax(teacher)).sum(dim=1).mean(dim=0). -/
noncomputable def klDistil {B N : ℕ}
    (student teacher : Fin B → Fin (N+1) → ℝ) : ℝ :=
  (∑ b, ∑ j, klPointwise (logSoftmax (student b) j) (softmax (teacher b) j)) / B

/-- torch.mean(torch.abs(inputs), dim=0): the mean absolute activation of each
dimension across the batch. -/
def meanAbs {K : Type} [LinearOrderedField K] {B D : ℕ}
    (x : Fin B → Fin D → K) : Fin D → K :=
  fun d => (∑ b, |x b d|) / B

/-- BaseTrainer._flops: torch.sum(torch.mean(torch.abs(inputs), dim=0) ** 2). -/
def _flops {K : Type} [LinearOrderedField K] {B D : ℕ}
    (x : Fin B → Fin D → K) : K :=
  ∑ d, meanAbs x d ^ 2

/-- BaseTrainer._L1: torch.sum(torch.abs(batch_rep), dim=-1).mean(). -/
def _L1 {K : Type} [LinearOrderedField K] {B D : ℕ}
    (x : Fin B → Fin D → K) : K :=
  (∑ b, ∑ d, |x b d|) / B

/-- BaseTrainer._L0: torch.count_nonzero(batch_rep, dim=-1).float().mean(). -/
def _L0 {K : Type} [LinearOrderedField K] [DecidableEq K] {B D : ℕ}
    (x : Fin B → Fin D → K) : K :=
  (∑ b, (((Finset.univ.filter fun d => x b d ≠ 0).card : ℕ) : K)) / B

/-- Pointwise update of one entry of a batch of representation vectors. -/
def updateEntry {K : Type} {B D : ℕ} (x : Fin B → Fin D → K)
    (b₀ : Fin B) (d₀ : Fin D) (v : K) : Fin B → Fin D → K :=
  fun b d => if b = b₀ ∧ d = d₀ then v else x b d

/-- docs.reshape(-1, docs.size(2)): all B * (N+1) candidate document vectors of
the batch as rows. -/
def docsFlat {K : Type} [LinearOrderedField K] {B N D : ℕ}
    (docs : Fin B → Fin (N+1) → Fin D → K) : Fin (B * (N+1)) → Fin D → K :=
  fun r => docs ⟨(r : ℕ) / (N+1), Nat.div_lt_of_lt_mul (Nat.mul_comm B (N+1) ▸ r.isLt)⟩
             ⟨(r : ℕ) % (N+1), Nat.mod_lt _ (Nat.succ_pos N)⟩

/-- The sparsity penalty built in DistilTrainer.compute_loss and
FirstStageTrainer.compute_loss when the model is not dense:
flops = lambda_d * _flops(docs.reshape(-1, docs.size(2))), and when splade_doc
is not set, additionally lambda_q * _L1(queries.squeeze(1)). -/
def sparseFlopsReg {K : Type} [LinearOrderedField K] {B N D : ℕ}
    (splade_doc : Bool) (lambda_d lambda_q : K)
    (queries : Fin B → Fin D → K) (docs : Fin B → Fin (N+1) → Fin D → K) : K :=
  let flops := lambda_d * _flops (docsFlat docs)
  if splade_doc then flops else flops + lambda_q * _L1 queries

/-- anti_zero = 1/(torch.sum(queries)**2) + 1/(torch.sum(docs)**2). -/
def antiZero {K : Type} [LinearOrderedField K] {B N D : ℕ}
    (queries : Fin B → Fin D → K) (docs : Fin B → Fin (N+1) → Fin D → K) : K :=
  1 / (∑ b, ∑ d, queries b d) ^ 2 + 1 / (∑ b, ∑ c, ∑ d, docs b c d) ^ 2

/-- The tokenized input batch handed to compute_loss: a Python dict from string
keys to values, embedded as an association list with unique keys. -/
def Inputs (α : Type) : Type := List (String × α)

/-- Python dict subscription inputs[k]: the value at k, or a KeyError carrying
the missing key. -/
def dictGet {α : Type} (inputs : Inputs α) (k : String) : Except String α :=
  match List.lookup k inputs with
  | some v => .ok v
  | none => .error k

/-- Python del inputs[k] (on a dict, removes the single entry at k). -/
def delItem {α : Type} (inputs : Inputs α) (k : String) : Inputs α :=
  List.eraseP (fun p => p.1 == k) inputs

/-- RerankerTrainer.compute_loss: contrastive cross-entropy over the first
logit column of the cross-encoder, viewed as (batch, n_negatives + 1) rows,
with all labels 0.  The model argument stands for the external cross-encoder,
already projected to logits[:,0]. -/
noncomputable def RerankerTrainer.compute_loss {B N : ℕ} {α : Type}
    (model : Inputs α → Fin (B * (N+1)) → ℝ) (inputs : Inputs α) : ℝ :=
  ceLoss (rerankerView (model inputs)) (fun _ => ⟨0, Nat.succ_pos N⟩)

/-- The loss combination of RerankerTrainer2.compute_loss after the teacher
scores have been split off: 0.1 * contrastive + 0.9 * distillation, the
distillation term selected by mse_margin. -/
noncomputable def RerankerTrainer2.lossOf {B N : ℕ} (mse_margin : Bool)
    (ceScores teacher : Fin B → Fin (N+1) → ℝ) : ℝ :=
  let loss := ceLoss ceScores (fun _ => ⟨0, Nat.succ_pos N⟩)
  let distil_loss :=
    if mse_margin then mseMarginDistil ceScores teacher
    else klDistil ceScores teacher
  0.1 * loss + 0.9 * distil_loss

/-- RerankerTrainer2.compute_loss: reads and deletes inputs["scores"] (a
KeyError when absent), runs the model on the remaining batch, and combines
contrastive and distillation losses.  Returns the loss together with the
mutated input dict. -/
noncomputable def RerankerTrainer2.compute_loss {B N : ℕ} {α : Type}
    (mse_margin : Bool) (model : Inputs α → Fin (B * (N+1)) → ℝ)
    (teacherOf : α → Fin B → Fin (N+1) → ℝ) (inputs : Inputs α) :
    Except String (ℝ × Inputs α) :=
  match dictGet inputs "scores" with
  | .error e => .error e
  | .ok ts =>
    let inputs2 := delItem inputs "scores"
    .ok (RerankerTrainer2.lossOf mse_margin (rerankerView (model inputs2))
          (teacherOf ts), inputs2)

/-- The loss combination of DistilTrainer.compute_loss after the teacher
scores have been split off: distillation (margin-MSE or KL at temperature 1),
contrastive cross-entropy over all in-batch negatives, the 0.01/0.99 convex
combination, and, when not dense, the sparsity penalty and anti_zero term. -/
noncomputable def DistilTrainer.lossOf {B N D : ℕ}
    (mse_margin splade_doc dense : Bool) (lambda_d lambda_q : ℝ)
    (queries : Fin B → Fin D → ℝ) (docs : Fin B → Fin (N+1) → Fin D → ℝ)
    (teacher : Fin B → Fin (N+1) → ℝ) : ℝ :=
  let scores := dualScores queries docs
  let temperature : ℝ := 1
  let distil_loss :=
    if mse_margin then mseMarginDistil scores teacher
    else klDistil (fun b c => scores b c * temperature)
           (fun b c => teacher b c * temperature)
  let ce_loss := dualCeLoss queries docs
  let loss := 0.01 * ce_loss + 0.99 * distil_loss
  if dense then loss
  else loss + sparseFlopsReg splade_doc lambda_d lambda_q queries docs
         + antiZero queries docs

/-- DistilTrainer.compute_loss: reads and deletes inputs["scores"] (a KeyError
when absent), runs the dual-encoder model on the remaining batch, and builds
the combined loss.  Returns the loss together with the mutated input dict. -/
noncomputable def DistilTrainer.compute_loss {B N D : ℕ} {α : Type}
    (mse_margin splade_doc dense : Bool) (lambda_d lambda_q : ℝ)
    (model : Inputs α → (Fin B → Fin D → ℝ) × (Fin B → Fin (N+1) → Fin D → ℝ))
    (teacherOf : α → Fin B → Fin (N+1) → ℝ) (inputs : Inputs α) :
    Except String (ℝ × Inputs α) :=
  match dictGet inputs "scores" with
  | .error e => .error e
  | .ok ts =>
    let inputs2 := delItem inputs "scores"
    .ok (DistilTrainer.lossOf mse_margin splade_doc dense lambda_d lambda_q
          (model inputs2).1 (model inputs2).2 (teacherOf ts), inputs2)

/-- The loss of FirstStageTrainer.compute_loss: contrastive cross-entropy over
all in-batch negatives plus, when not dense, the sparsity penalty and the
anti_zero term. -/
noncomputable def FirstStageTrainer.lossOf {B N D : ℕ}
    (splade_doc dense : Bool) (lambda_d lambda_q : ℝ)
    (queries : Fin B → Fin D → ℝ) (docs : Fin B → Fin (N+1) → Fin D → ℝ) : ℝ :=
  let loss := dualCeLoss queries docs
  if dense then loss
  else loss + sparseFlopsReg splade_doc lambda_d lambda_q queries docs
         + antiZero queries docs

/-- FirstStageTrainer.compute_loss: the try/except around del inputs["scores"]
silently drops the optional teacher scores when present and does nothing when
absent; the model then runs on the remaining batch.  Total: no error is ever
raised at this layer.  Returns the loss together with the mutated input dict. -/
noncomputable def FirstStageTrainer.compute_loss {B N D : ℕ} {α : Type}
    (splade_doc dense : Bool) (lambda_d lambda_q : ℝ)
    (model : Inputs α → (Fin B → Fin D → ℝ) × (Fin B → Fin (N+1) → Fin D → ℝ))
    (inputs : Inputs α) : ℝ × Inputs α :=
  let inputs2 := delItem inputs "scores"
  (FirstStageTrainer.lossOf splade_doc dense lambda_d lambda_q
    (model inputs2).1 (model inputs2).2, inputs2)

/-- The checkpoint weight file name used by _load_from_checkpoint. -/
def WEIGHTS_NAME : String := "pytorch_model.bin"

/-- The dual-encoder model as seen by BaseTrainer._load_from_checkpoint: two
sub-encoders given by their parameter assignments (parameter name to value)
and the shared_weights flag.  V is the abstract parameter value type. -/
structure DualEncoderModel (V : Type) where
  doc_encoder : String → V
  query_encoder : String → V
  shared_weights : Bool

/-- encoder.load_state_dict(state_dict, False): a non-strict load overwrites
the parameters named in the state dict and keeps the rest. -/
def load_state_dict {V : Type} (w : String → V) (sd : String → Option V) :
    String → V :=
  fun p => (sd p).getD (w p)

/-- BaseTrainer._load_from_checkpoint: load the document encoder from the
weight file at the checkpoint root; if weights are shared, alias the query
encoder to the freshly loaded document encoder, otherwise load the query
encoder from the weight file under the "query" subdirectory.  The checkpoint
store maps a path (list of components joined by os.path.join) to a state
dict. -/
def BaseTrainer._load_from_checkpoint {V : Type}
    (ckpt : List String → String → Option V) (resume_from_checkpoint : String)
    (m : DualEncoderModel V) : DualEncoderModel V :=
  let doc := load_state_dict m.doc_encoder
    (ckpt [resume_from_checkpoint, WEIGHTS_NAME])
  if m.shared_weights then
    { m with doc_encoder := doc, query_encoder := doc }
  else
    { m with doc_encoder := doc,
             query_encoder := load_state_dict m.query_encoder
               (ckpt [resume_from_checkpoint, "query", WEIGHTS_NAME]) }

/-- The metric accumulation lists of DistilTrainer between two log flushes. -/
structure DistilLogLists (K : Type) where
  last_celoss : List K
  last_distilloss : List K
  last_flops : List K
  last_anti_zero : List K
  last_docs : List K
  last_queries : List K
  deriving Repr, DecidableEq

/-- np.mean of a list of scalars. -/
def npMean {K : Type} [LinearOrderedField K] (l : List K) : K :=
  l.sum / l.length

/-- The structured record emitted by DistilTrainer.log: the rounded epoch
fraction when available, the sparsity metrics when the model is not dense, the
mean contrastive and distillation losses, and the global step. -/
structure DistilLogRecord (K : Type) where
  epoch : Option K
  L0_d : Option K
  L0_q : Option K
  flops_loss : Option K
  anti_zero : Option K
  ce_loss : K
  distil_loss : K
  step : ℕ
  deriving Repr, DecidableEq

/-- DistilTrainer.log: emit the rounded epoch, the np.mean of every
accumulation list (the sparsity ones only when not dense), and the global
step, then reset every accumulation list to the empty list.  Rounding of the
epoch is delegated to the external Python round builtin, abstracted as
pyround2. -/
def DistilTrainer.log {K : Type} [LinearOrderedField K] (pyround2 : K → K)
    (epoch : Option K) (global_step : ℕ) (dense : Bool)
    (st : DistilLogLists K) : DistilLogRecord K × DistilLogLists K :=
  ({ epoch := epoch.map pyround2,
     L0_d := if dense then none else some (npMean st.last_docs),
     L0_q := if dense then none else some (npMean st.last_queries),
     flops_loss := if dense then none else some (npMean st.last_flops),
     anti_zero := if dense then none else some (npMean st.last_anti_zero),
     ce_loss := npMean st.last_celoss,
     distil_loss := npMean st.last_distilloss,
     step := global_step },
   ⟨[], [], [], [], [], []⟩)

/-- The scalar metrics one call of DistilTrainer.compute_loss appends. -/
structure DistilStepMetrics (K : Type) where
  ce : K
  distil : K
  flops : K
  anti : K
  docsL0 : K
  queriesL0 : K

/-- The list appends performed by one call of DistilTrainer.compute_loss:
ce and distillation losses always, the sparsity metrics only when the model is
not dense. -/
def DistilTrainer.appendMetrics {K : Type} (dense : Bool)
    (st : DistilLogLists K) (m : DistilStepMetrics K) : DistilLogLists K :=
  { last_celoss := st.last_celoss ++ [m.ce],
    last_distilloss := st.last_distilloss ++ [m.distil],
    last_flops := if dense then st.last_flops else st.last_flops ++ [m.flops],
    last_anti_zero :=
      if dense then st.last_anti_zero else st.last_anti_zero ++ [m.anti],
    last_docs := if dense then st.last_docs else st.last_docs ++ [m.docsL0],
    last_queries :=
      if dense then st.last_queries else st.last_queries ++ [m.queriesL0] }

/-- The metric accumulation lists of FirstStageTrainer between two flushes. -/
structure FirstStageLogLists (K : Type) where
  last_celoss : List K
  last_flops : List K
  last_anti_zero : List K
  last_docs : List K
  last_queries : List K
  deriving Repr, DecidableEq

/-- The structured record emitted by FirstStageTrainer.log. -/
structure FirstStageLogRecord (K : Type) where
  epoch : Option K
  L0_d : Option K
  L0_q : Option K
  flops_loss : Option K
  anti_zero : Option K
  ce_loss : K
  step : ℕ
  deriving Repr, DecidableEq

/-- FirstStageTrainer.log: emit the rounded epoch, the np.mean of every
accumulation list (the sparsity ones only when not dense) and the global step,
then reset every accumulation list to the empty list. -/
def FirstStageTrainer.log {K : Type} [LinearOrderedField K] (pyround2 : K → K)
    (epoch : Option K) (global_step : ℕ) (dense : Bool)
    (st : FirstStageLogLists K) : FirstStageLogRecord K × FirstStageLogLists K :=
  ({ epoch := epoch.map pyround2,
     L0_d := if dense then none else some (npMean st.last_docs),
     L0_q := if dense then none else some (npMean st.last_queries),
     flops_loss := if dense then none else some (npMean st.last_flops),
     anti_zero := if dense then none else some (npMean st.last_anti_zero),
     ce_loss := npMean st.last_celoss,
     step := global_step },
   ⟨[], [], [], [], []⟩)

/-- The scalar metrics one call of FirstStageTrainer.compute_loss appends. -/
structure FirstStageStepMetrics (K : Type) where
  ce : K
  flops : K
  anti : K
  docsL0 : K
  queriesL0 : K

/-- The list appends performed by one call of FirstStageTrainer.compute_loss:
the ce loss always, the sparsity metrics only when the model is not dense. -/
def FirstStageTrainer.appendMetrics {K : Type} (dense : Bool)
    (st : FirstStageLogLists K) (m : FirstStageStepMetrics K) :
    FirstStageLogLists K :=
  { last_celoss := st.last_celoss ++ [m.ce],
    last_flops := if dense then st.last_flops else st.last_flops ++ [m.flops],
    last_anti_zero :=
      if dense then st.last_anti_zero else st.last_anti_zero ++ [m.anti],
    last_docs := if dense then st.last_docs else st.last_docs ++ [m.docsL0],
    last_queries :=
      if dense then st.last_queries else st.last_queries ++ [m.queriesL0] }

/-! Helper lemmas. -/

theorem expSum_pos {N : ℕ} (s : Fin (N+1) → ℝ) : 0 < ∑ j, Real.exp (s j) :=
  Finset.sum_pos (fun j _ => Real.exp_pos (s j)) Finset.univ_nonempty

theorem softmax_pos {N : ℕ} (s : Fin (N+1) → ℝ) (j : Fin (N+1)) :
    0 < softmax s j :=
  div_pos (Real.exp_pos _) (expSum_pos s)

theorem logSoftmax_eq_log_softmax {N : ℕ} (s : Fin (N+1) → ℝ) (j : Fin (N+1)) :
    logSoftmax s j = Real.log (softmax s j) := by
  unfold logSoftmax softmax
  rw [Real.log_div (Real.exp_ne_zero _) (ne_of_gt (expSum_pos s)), Real.log_exp]

theorem crossEntropyRow_single (s : Fin 1 → ℝ) (label : Fin 1) :
    crossEntropyRow s label = 0 := by
  have hl : label = 0 := Subsingleton.elim label 0
  subst hl
  simp [crossEntropyRow, logSoftmax, Fin.sum_univ_one, Real.log_exp]

theorem klPointwise_self (t : ℝ) (ht : 0 < t) :
    klPointwise (Real.log t) t = 0 := by
  simp [klPointwise, ne_of_gt ht]

theorem eraseP_of_lookup_none {α : Type} (k : String) (l : List (String × α))
    (h : List.lookup k l = none) : List.eraseP (fun p => p.1 == k) l = l := by
  induction l with
  | nil => rfl
  | cons hd tl ih =>
    rw [List.lookup_cons] at h
    by_cases hk : k = hd.1
    · simp [hk] at h
    · have hk2 : (hd.1 == k) = false := by
        simp [beq_eq_false_iff_ne]; exact fun he => hk he.symm
      have hk3 : (k == hd.1) = false := by
        simp [beq_eq_false_iff_ne]; exact hk
      rw [hk3] at h
      simp only [List.eraseP_cons, hk2, cond_false]
      rw [ih h]

theorem lookup_of_not_mem_keys {α : Type} (k : String) (l : List (String × α))
    (h : k ∉ l.map Prod.fst) : List.lookup k l = none := by
  induction l with
  | nil => rfl
  | cons hd tl ih =>
    simp only [List.map_cons, List.mem_cons] at h
    push_neg at h
    rw [List.lookup_cons]
    have : (k == hd.1) = false := by simp [beq_eq_false_iff_ne]; exact h.1
    rw [this]
    exact ih h.2

theorem lookup_delItem_self {α : Type} (k : String) (l : List (String × α))
    (hnd : (l.map Prod.fst).Nodup) :
    List.lookup k (delItem l k) = none := by
  induction l with
  | nil => rfl
  | cons hd tl ih =>
    simp only [List.map_cons, List.nodup_cons] at hnd
    by_cases hk : hd.1 = k
    · have : (hd.1 == k) = true := by simp [hk]
      simp only [delItem, List.eraseP_cons, this, cond_true]
      subst hk
      exact lookup_of_not_mem_keys _ _ hnd.1
    · have hk2 : (hd.1 == k) = false := by simp [beq_eq_false_iff_ne]; exact hk
      simp only [delItem, List.eraseP_cons, hk2, cond_false]
      rw [List.lookup_cons]
      have hk3 : (k == hd.1) = false := by
        simp [beq_eq_false_iff_ne]; exact fun he => hk he.symm
      rw [hk3]
      exact ih hnd.2

theorem delItem_cons_self {α : Type} (k : String) (v : α)
    (l : List (String × α)) : delItem ((k, v) :: l) k = l := by
  simp [delItem, List.eraseP_cons]

theorem distil_foldl_celoss {K : Type} (dense : Bool) (st : DistilLogLists K)
    (ms : List (DistilStepMetrics K)) :
    (ms.foldl (DistilTrainer.appendMetrics dense) st).last_celoss
      = st.last_celoss ++ ms.map DistilStepMetrics.ce := by
  induction ms generalizing st with
  | nil => simp
  | cons hd tl ih =>
    simp only [List.foldl_cons, List.map_cons]
    rw [ih]
    simp [DistilTrainer.appendMetrics]

theorem distil_foldl_distilloss {K : Type} (dense : Bool)
    (st : DistilLogLists K) (ms : List (DistilStepMetrics K)) :
    (ms.foldl (DistilTrainer.appendMetrics dense) st).last_distilloss
      = st.last_distilloss ++ ms.map DistilStepMetrics.distil := by
  induction ms generalizing st with
  | nil => simp
  | cons hd tl ih =>
    simp only [List.foldl_cons, List.map_cons]
    rw [ih]
    simp [DistilTrainer.appendMetrics]

theorem firstStage_foldl_celoss {K : Type} (dense : Bool)
    (st : FirstStageLogLists K) (ms : List (FirstStageStepMetrics K)) :
    (ms.foldl (FirstStageTrainer.appendMetrics dense) st).last_celoss
      = st.last_celoss ++ ms.map FirstStageStepMetrics.ce := by
  induction ms generalizing st with
  | nil => simp
  | cons hd tl ih =>
    simp only [List.foldl_cons, List.map_cons]
    rw [ih]
    simp [FirstStageTrainer.appendMetrics]

theorem delItem_of_lookup_none {α : Type} (k : String) (l : List (String × α))
    (h : List.lookup k l = none) : delItem l k = l :=
  eraseP_of_lookup_none k l h

/-! Claim theorems. -/

/-- C1: in the dual-encoder trainers (DistilTrainer.compute_loss and
FirstStageTrainer.compute_loss share dualCeLoss), the contrastive
cross-entropy is computed over a per-query score row whose column 0 is the dot
product of the query with its own positive document and whose remaining
batch_size * n_negatives columns are its dot products with every negative
document vector of the whole batch, with class label 0 for every row,
averaged over the batch. -/
theorem c1_contrastive_in_batch_rows {B N D : ℕ}
    (queries : Fin B → Fin D → ℝ) (docs : Fin B → Fin (N+1) → Fin D → ℝ) :
    (∀ b j, allScores queries docs b j = specContrastiveRow queries docs b j)
    ∧ dualCeLoss queries docs
        = (∑ b, crossEntropyRow (specContrastiveRow queries docs b) posLabel)
            / B := by
  have hrow : ∀ b j, allScores queries docs b j
      = specContrastiveRow queries docs b j := by
    intro b j
    unfold allScores specContrastiveRow dualScores scoresNegative dot
    split <;> rfl
  refine ⟨hrow, ?_⟩
  unfold dualCeLoss ceLoss
  exact congrArg (fun s => s / (B:ℝ))
    (Finset.sum_congr rfl (fun b _ =>
      congrArg (fun s => crossEntropyRow s posLabel) (funext (hrow b))))

/-- C2: the distillation term shared by RerankerTrainer2.compute_loss and
DistilTrainer.compute_loss is exactly zero on a batch where the student
matches the teacher: in margin-MSE mode when the student margins equal the
teacher margins for every batch element and negative, and in KL mode when the
student softmax distribution over candidates equals the teacher softmax
distribution for every batch element. -/
theorem c2_distillation_zero_when_matching {B N : ℕ}
    (student teacher : Fin B → Fin (N+1) → ℝ) :
    ((∀ b j, marginOf student b j = marginOf teacher b j) →
        mseMarginDistil student teacher = 0)
    ∧ ((∀ b j, softmax (student b) j = softmax (teacher b) j) →
        klDistil student teacher = 0) := by
  constructor
  · intro h
    unfold mseMarginDistil
    rw [Finset.sum_eq_zero, zero_div]
    intro b _
    rw [Finset.sum_eq_zero, zero_div]
    intro j _
    rw [h b j]
    simp
  · intro h
    unfold klDistil
    rw [Finset.sum_eq_zero, zero_div]
    intro b _
    apply Finset.sum_eq_zero
    intro j _
    rw [logSoftmax_eq_log_softmax, h b j]
    exact klPointwise_self _ (softmax_pos _ _)

/-- Witness for C2 at a concrete batch (student equal to teacher). -/
theorem c2_witness :
    mseMarginDistil (fun (_ : Fin 1) (_ : Fin 2) => (0:ℝ)) (fun _ _ => 0) = 0
    ∧ klDistil (fun (_ : Fin 1) (_ : Fin 2) => (0:ℝ)) (fun _ _ => 0) = 0 := by
  have h := c2_distillation_zero_when_matching
    (fun (_ : Fin 1) (_ : Fin 2) => (0:ℝ)) (fun _ _ => 0)
  exact ⟨h.1 (fun _ _ => rfl), h.2 (fun _ _ => rfl)⟩

/-- C3 counterexample: with splade_doc active the code adds no query L1 term
at all, contradicting the claim that the L1 penalty on queries is applied
exactly when splade_doc is active.  At lambda_d = 0, lambda_q = 1, an
all-zero document batch and a query batch of L1 norm 1, the regularizer is 0
while the claim predicts lambda_d * flops + lambda_q * L1 = 1. -/
theorem c3_counterexample :
    sparseFlopsReg true (0:ℚ) 1 (fun (_ : Fin 1) (_ : Fin 1) => (1:ℚ))
        (fun (_ : Fin 1) (_ : Fin 1) (_ : Fin 1) => (0:ℚ))
      ≠ 0 * _flops (docsFlat (fun (_ : Fin 1) (_ : Fin 1) (_ : Fin 1) => (0:ℚ)))
          + 1 * _L1 (fun (_ : Fin 1) (_ : Fin 1) => (1:ℚ)) := by
  have hl : _L1 (fun (_ : Fin 1) (_ : Fin 1) => (1:ℚ)) = 1 := by
    simp [_L1]
  have hf : sparseFlopsReg true (0:ℚ) 1 (fun (_ : Fin 1) (_ : Fin 1) => (1:ℚ))
      (fun (_ : Fin 1) (_ : Fin 1) (_ : Fin 1) => (0:ℚ)) = 0 := by
    simp [sparseFlopsReg]
  rw [hf, hl]
  norm_num

/-- C3 amended: in the sparse (non-dense) dual-encoder trainers the L1
penalty on queries, scaled by lambda_q, is added exactly when the
document-only sparsification mode (splade_doc) is NOT active; when splade_doc
is active the regularizer is the lambda_d-scaled FLOPS term alone. -/
theorem c3_amended_L1_gating {K : Type} [LinearOrderedField K] {B N D : ℕ}
    (splade_doc : Bool) (lambda_d lambda_q : K)
    (queries : Fin B → Fin D → K) (docs : Fin B → Fin (N+1) → Fin D → K) :
    sparseFlopsReg splade_doc lambda_d lambda_q queries docs
      = lambda_d * _flops (docsFlat docs)
          + (if splade_doc then 0 else lambda_q * _L1 queries) := by
  cases splade_doc <;> simp [sparseFlopsReg]

/-- C5: with n_negatives = 0 (a single candidate per query, the positive) the
contrastive cross-entropy loss of the trainers is zero: dualCeLoss is the
contrastive term of DistilTrainer.compute_loss and
FirstStageTrainer.compute_loss, and RerankerTrainer.compute_loss is the
cross-encoder contrastive loss. -/
theorem c5_zero_negatives_zero_loss {B D : ℕ} {α : Type}
    (queries : Fin B → Fin D → ℝ) (docs : Fin B → Fin 1 → Fin D → ℝ)
    (model : Inputs α → Fin (B * 1) → ℝ) (inputs : Inputs α) :
    dualCeLoss queries docs = 0
    ∧ RerankerTrainer.compute_loss (N := 0) model inputs = 0 := by
  constructor
  · unfold dualCeLoss ceLoss
    rw [Finset.sum_eq_zero, zero_div]
    intro b _
    exact crossEntropyRow_single _ _
  · unfold RerankerTrainer.compute_loss ceLoss
    rw [Finset.sum_eq_zero, zero_div]
    intro b _
    exact crossEntropyRow_single _ _

/-- C4: in the trainer variants with per-step metric accumulation
(DistilTrainer and FirstStageTrainer), every call of the log hook emits, for
each tracked metric, the arithmetic mean of the values accumulated since the
previous flush (together with the rounded epoch fraction), and resets every
accumulation list to empty; so a flush that follows a previous flush and a run
of compute_loss steps reports the mean of exactly the values of those steps,
never cumulative or single-step values. -/
theorem c4_log_flush_means_and_reset {K : Type} [LinearOrderedField K]
    (pyround2 : K → K) (epoch : Option K) (global_step : ℕ) (dense : Bool)
    (st : DistilLogLists K) (ms : List (DistilStepMetrics K))
    (st2 : FirstStageLogLists K) (ms2 : List (FirstStageStepMetrics K)) :
    (DistilTrainer.log pyround2 epoch global_step dense st).1
        = { epoch := epoch.map pyround2,
            L0_d := if dense then none else some (npMean st.last_docs),
            L0_q := if dense then none else some (npMean st.last_queries),
            flops_loss := if dense then none else some (npMean st.last_flops),
            anti_zero :=
              if dense then none else some (npMean st.last_anti_zero),
            ce_loss := npMean st.last_celoss,
            distil_loss := npMean st.last_distilloss,
            step := global_step }
    ∧ (DistilTrainer.log pyround2 epoch global_step dense st).2
        = ⟨[], [], [], [], [], []⟩
    ∧ (DistilTrainer.log pyround2 epoch global_step dense
          (ms.foldl (DistilTrainer.appendMetrics dense)
            (DistilTrainer.log pyround2 epoch global_step dense st).2)).1.ce_loss
        = npMean (ms.map DistilStepMetrics.ce)
    ∧ (DistilTrainer.log pyround2 epoch global_step dense
          (ms.foldl (DistilTrainer.appendMetrics dense)
            (DistilTrainer.log pyround2 epoch global_step dense st).2)).1.distil_loss
        = npMean (ms.map DistilStepMetrics.distil)
    ∧ (FirstStageTrainer.log pyround2 epoch global_step dense st2).1
        = { epoch := epoch.map pyround2,
            L0_d := if dense then none else some (npMean st2.last_docs),
            L0_q := if dense then none else some (npMean st2.last_queries),
            flops_loss := if dense then none else some (npMean st2.last_flops),
            anti_zero :=
              if dense then none else some (npMean st2.last_anti_zero),
            ce_loss := npMean st2.last_celoss,
            step := global_step }
    ∧ (FirstStageTrainer.log pyround2 epoch global_step dense st2).2
        = ⟨[], [], [], [], []⟩
    ∧ (FirstStageTrainer.log pyround2 epoch global_step dense
          (ms2.foldl (FirstStageTrainer.appendMetrics dense)
            (FirstStageTrainer.log pyround2 epoch global_step dense st2).2)).1.ce_loss
        = npMean (ms2.map FirstStageStepMetrics.ce) := by
  refine ⟨rfl, rfl, ?_, ?_, rfl, rfl, ?_⟩
  · show npMean (ms.foldl (DistilTrainer.appendMetrics dense)
        (⟨[], [], [], [], [], []⟩ : DistilLogLists K)).last_celoss
      = npMean (ms.map DistilStepMetrics.ce)
    rw [distil_foldl_celoss]
    simp
  · show npMean (ms.foldl (DistilTrainer.appendMetrics dense)
        (⟨[], [], [], [], [], []⟩ : DistilLogLists K)).last_distilloss
      = npMean (ms.map DistilStepMetrics.distil)
    rw [distil_foldl_distilloss]
    simp
  · show npMean (ms2.foldl (FirstStageTrainer.appendMetrics dense)
        (⟨[], [], [], [], []⟩ : FirstStageLogLists K)).last_celoss
      = npMean (ms2.map FirstStageStepMetrics.ce)
    rw [firstStage_foldl_celoss]
    simp

/-- C6: the FLOPS surrogate of BaseTrainer._flops is zero exactly when the
mean absolute activation vector is all zero, and it strictly increases when
activation mass is moved from a dimension carrying no more mass onto a
dimension carrying at least as much (a concentration step), while the total L1
norm of the mean absolute activation vector is unchanged by that step. -/
theorem c6_flops_zero_iff_and_concentration {K : Type} [LinearOrderedField K]
    {B D : ℕ} (x y : Fin B → Fin D → K) (i j : Fin D) (ε : K)
    (hij : i ≠ j) (hε : 0 < ε) (hmono : meanAbs x j ≤ meanAbs x i)
    (hy : ∀ d, meanAbs y d
          = if d = i then meanAbs x i + ε
            else if d = j then meanAbs x j - ε else meanAbs x d) :
    (_flops x = 0 ↔ ∀ d, meanAbs x d = 0)
    ∧ (∑ d, meanAbs y d) = (∑ d, meanAbs x d)
    ∧ _flops x < _flops y := by
  have h1 : _flops x = 0 ↔ ∀ d, meanAbs x d = 0 := by
    unfold _flops
    rw [Finset.sum_eq_zero_iff_of_nonneg (fun d _ => sq_nonneg _)]
    constructor
    · intro h d
      exact (pow_eq_zero_iff two_ne_zero).mp (h d (Finset.mem_univ d))
    · intro h d _
      rw [h d]
      ring
  have hsub : ∀ d, meanAbs y d - meanAbs x d
      = (if d = i then ε else 0) + (if d = j then -ε else 0) := by
    intro d
    rw [hy d]
    by_cases hdi : d = i
    · subst hdi
      rw [if_pos rfl, if_pos rfl, if_neg hij]
      ring
    · rw [if_neg hdi, if_neg hdi]
      by_cases hdj : d = j
      · subst hdj
        rw [if_pos rfl, if_pos rfl]
        ring
      · rw [if_neg hdj, if_neg hdj]
        ring
  have h2 : (∑ d, meanAbs y d) = ∑ d, meanAbs x d := by
    have hz : (∑ d, (meanAbs y d - meanAbs x d)) = 0 := by
      rw [Finset.sum_congr rfl (fun d _ => hsub d), Finset.sum_add_distrib,
          Finset.sum_ite_eq' Finset.univ i (fun _ => ε),
          Finset.sum_ite_eq' Finset.univ j (fun _ => -ε)]
      simp
    rw [Finset.sum_sub_distrib] at hz
    linarith
  have hsq : ∀ d, meanAbs y d ^ 2 - meanAbs x d ^ 2
      = (if d = i then 2 * ε * meanAbs x i + ε ^ 2 else 0)
        + (if d = j then -(2 * ε * meanAbs x j) + ε ^ 2 else 0) := by
    intro d
    rw [hy d]
    by_cases hdi : d = i
    · subst hdi
      rw [if_pos rfl, if_pos rfl, if_neg hij]
      ring
    · rw [if_neg hdi, if_neg hdi]
      by_cases hdj : d = j
      · subst hdj
        rw [if_pos rfl, if_pos rfl]
        ring
      · rw [if_neg hdj, if_neg hdj]
        ring
  have h3 : _flops x < _flops y := by
    have hdiff : _flops y - _flops x
        = 2 * ε * (meanAbs x i - meanAbs x j) + 2 * ε ^ 2 := by
      unfold _flops
      rw [← Finset.sum_sub_distrib,
          Finset.sum_congr rfl (fun d _ => hsq d), Finset.sum_add_distrib,
          Finset.sum_ite_eq' Finset.univ i
            (fun _ => 2 * ε * meanAbs x i + ε ^ 2),
          Finset.sum_ite_eq' Finset.univ j
            (fun _ => -(2 * ε * meanAbs x j) + ε ^ 2)]
      simp only [Finset.mem_univ, if_true]
      ring
    nlinarith [mul_nonneg hε.le (sub_nonneg.mpr hmono), mul_pos hε hε]
  exact ⟨h1, h2, h3⟩

/-- Witness for C6: one batch row, two dimensions, moving mass 1 from the
dimension with mean 1 onto the dimension with mean 2. -/
theorem c6_witness :
    (_flops (fun (_ : Fin 1) (d : Fin 2) => if d = 0 then (2:ℚ) else 1) = 0
      ↔ ∀ d, meanAbs (fun (_ : Fin 1) (d : Fin 2) => if d = 0 then (2:ℚ) else 1) d = 0)
    ∧ (∑ d, meanAbs (fun (_ : Fin 1) (d : Fin 2) => if d = 0 then (3:ℚ) else 0) d)
        = (∑ d, meanAbs (fun (_ : Fin 1) (d : Fin 2) => if d = 0 then (2:ℚ) else 1) d)
    ∧ _flops (fun (_ : Fin 1) (d : Fin 2) => if d = 0 then (2:ℚ) else 1)
        < _flops (fun (_ : Fin 1) (d : Fin 2) => if d = 0 then (3:ℚ) else 0) :=
  c6_flops_zero_iff_and_concentration
    (fun (_ : Fin 1) (d : Fin 2) => if d = 0 then (2:ℚ) else 1)
    (fun (_ : Fin 1) (d : Fin 2) => if d = 0 then (3:ℚ) else 0)
    0 1 1 (by decide) (by norm_num)
    (by norm_num [meanAbs])
    (by intro d; fin_cases d <;> norm_num [meanAbs])

/-- C7: after BaseTrainer._load_from_checkpoint with shared_weights true the
query encoder and the document encoder are the same loaded weights, hence any
encoding function produces identical outputs on identical inputs; with
shared_weights false the query encoder is instead non-strictly loaded from the
second checkpoint file under the "query" subdirectory of the checkpoint
path. -/
theorem c7_load_from_checkpoint {V : Type}
    (ckpt : List String → String → Option V) (resume : String)
    (m : DualEncoderModel V) :
    if m.shared_weights then
      (BaseTrainer._load_from_checkpoint ckpt resume m).query_encoder
          = (BaseTrainer._load_from_checkpoint ckpt resume m).doc_encoder
        ∧ ∀ (I O : Type) (encode : (String → V) → I → O) (input : I),
            encode (BaseTrainer._load_from_checkpoint ckpt resume m).query_encoder
                input
              = encode (BaseTrainer._load_from_checkpoint ckpt resume m).doc_encoder
                  input
    else
      (BaseTrainer._load_from_checkpoint ckpt resume m).query_encoder
        = load_state_dict m.query_encoder
            (ckpt [resume, "query", WEIGHTS_NAME]) := by
  cases hm : m.shared_weights with
  | false =>
    simp only [Bool.false_eq_true, if_false]
    simp [BaseTrainer._load_from_checkpoint, hm]
  | true =>
    simp only [if_true]
    have hqd : (BaseTrainer._load_from_checkpoint ckpt resume m).query_encoder
        = (BaseTrainer._load_from_checkpoint ckpt resume m).doc_encoder := by
      simp [BaseTrainer._load_from_checkpoint, hm]
    exact ⟨hqd, fun I O encode input => by rw [hqd]⟩

/-- C8: FirstStageTrainer.compute_loss tolerates the absence of the optional
teacher-score field silently.  It is total (no error value in its type: the
try/except around the deletion never escapes), a batch with the "scores" key
produces exactly the same result as the same batch without it, and a batch
without the key is processed unchanged. -/
theorem c8_first_stage_scores_optional {B N D : ℕ} {α : Type}
    (splade_doc dense : Bool) (lambda_d lambda_q : ℝ)
    (model : Inputs α → (Fin B → Fin D → ℝ) × (Fin B → Fin (N+1) → Fin D → ℝ))
    (inputs : Inputs α) (v : α) (h : List.lookup "scores" inputs = none) :
    FirstStageTrainer.compute_loss splade_doc dense lambda_d lambda_q model
        (("scores", v) :: inputs)
      = FirstStageTrainer.compute_loss splade_doc dense lambda_d lambda_q
          model inputs
    ∧ FirstStageTrainer.compute_loss splade_doc dense lambda_d lambda_q model
        inputs
      = (FirstStageTrainer.lossOf splade_doc dense lambda_d lambda_q
          (model inputs).1 (model inputs).2, inputs) := by
  have he : delItem inputs "scores" = inputs := delItem_of_lookup_none _ _ h
  have hc : delItem (("scores", v) :: inputs) "scores" = inputs :=
    delItem_cons_self _ _ _
  constructor
  · unfold FirstStageTrainer.compute_loss
    rw [hc, he]
  · unfold FirstStageTrainer.compute_loss
    rw [he]

/-- Witness for C8 at a concrete empty batch and teacher-score value 0. -/
theorem c8_witness :
    FirstStageTrainer.compute_loss false false (0:ℝ) 0
        (fun _ => (fun (_ : Fin 1) (_ : Fin 1) => (0:ℝ),
                   fun (_ : Fin 1) (_ : Fin 1) (_ : Fin 1) => (0:ℝ)))
        [(("scores" : String), (0:ℚ))]
      = FirstStageTrainer.compute_loss false false 0 0
          (fun _ => (fun (_ : Fin 1) (_ : Fin 1) => (0:ℝ),
                     fun (_ : Fin 1) (_ : Fin 1) (_ : Fin 1) => (0:ℝ)))
          [] :=
  (c8_first_stage_scores_optional false false 0 0
    (fun _ => (fun (_ : Fin 1) (_ : Fin 1) => (0:ℝ),
               fun (_ : Fin 1) (_ : Fin 1) (_ : Fin 1) => (0:ℝ)))
    ([] : Inputs ℚ) 0 rfl).1

/-- C9: BaseTrainer._L0 equals the exact count of strictly nonzero entries of
each representation vector averaged over the batch, and is invariant to entry
magnitude: replacing any nonzero entry by any other nonzero value leaves it
unchanged. -/
theorem c9_L0_count_and_invariance {K : Type} [LinearOrderedField K]
    [DecidableEq K] {B D : ℕ} (x : Fin B → Fin D → K) (b₀ : Fin B)
    (d₀ : Fin D) (v : K) (hx : x b₀ d₀ ≠ 0) (hv : v ≠ 0) :
    _L0 x = (∑ b, (((Finset.univ.filter fun d => x b d ≠ 0).card : ℕ) : K)) / B
    ∧ _L0 (updateEntry x b₀ d₀ v) = _L0 x := by
  refine ⟨rfl, ?_⟩
  unfold _L0
  have hfilter : ∀ b : Fin B,
      (Finset.univ.filter fun d => updateEntry x b₀ d₀ v b d ≠ 0)
        = Finset.univ.filter fun d => x b d ≠ 0 := by
    intro b
    apply Finset.filter_congr
    intro d _
    simp only [updateEntry]
    split_ifs with hcond
    · obtain ⟨hb, hd⟩ := hcond
      subst hb
      subst hd
      simp [hx, hv]
    · exact Iff.rfl
  exact congrArg (fun s => s / (B:K))
    (Finset.sum_congr rfl (fun b _ => by rw [hfilter b]))

/-- Witness for C9: replacing the nonzero entry 1 by 2 leaves _L0 unchanged. -/
theorem c9_witness :
    _L0 (updateEntry (fun (_ : Fin 1) (_ : Fin 1) => (1:ℚ)) 0 0 2)
      = _L0 (fun (_ : Fin 1) (_ : Fin 1) => (1:ℚ)) :=
  (c9_L0_count_and_invariance (fun (_ : Fin 1) (_ : Fin 1) => (1:ℚ)) 0 0 2
    (by decide) (by decide)).2

/-- C10: RerankerTrainer2.compute_loss and DistilTrainer.compute_loss require
the teacher-score field: on a batch without the "scores" key both produce the
KeyError for "scores"; when the key is present both delete it from the input
mapping before invoking the model (the model runs on, and the returned batch
is, the mapping with "scores" removed), so the batch no longer contains
"scores" after the call. -/
theorem c10_distil_trainers_require_scores {B N D : ℕ} {α : Type}
    (mse_margin splade_doc dense : Bool) (lambda_d lambda_q : ℝ)
    (modelD : Inputs α → (Fin B → Fin D → ℝ) × (Fin B → Fin (N+1) → Fin D → ℝ))
    (modelR : Inputs α → Fin (B * (N+1)) → ℝ)
    (teacherOf : α → Fin B → Fin (N+1) → ℝ)
    (inputs : Inputs α) (hnd : (inputs.map Prod.fst).Nodup) :
    (List.lookup "scores" inputs = none →
      DistilTrainer.compute_loss mse_margin splade_doc dense lambda_d lambda_q
          modelD teacherOf inputs = .error "scores"
      ∧ RerankerTrainer2.compute_loss mse_margin modelR teacherOf inputs
          = .error "scores")
    ∧ (∀ ts, List.lookup "scores" inputs = some ts →
      DistilTrainer.compute_loss mse_margin splade_doc dense lambda_d lambda_q
          modelD teacherOf inputs
        = .ok (DistilTrainer.lossOf mse_margin splade_doc dense lambda_d
            lambda_q (modelD (delItem inputs "scores")).1
            (modelD (delItem inputs "scores")).2 (teacherOf ts),
            delItem inputs "scores")
      ∧ RerankerTrainer2.compute_loss mse_margin modelR teacherOf inputs
        = .ok (RerankerTrainer2.lossOf mse_margin
            (rerankerView (modelR (delItem inputs "scores"))) (teacherOf ts),
            delItem inputs "scores")
      ∧ List.lookup "scores" (delItem inputs "scores") = none) := by
  constructor
  · intro h
    have hget : dictGet inputs "scores" = Except.error "scores" := by
      unfold dictGet
      rw [h]
    constructor
    · unfold DistilTrainer.compute_loss
      rw [hget]
    · unfold RerankerTrainer2.compute_loss
      rw [hget]
  · intro ts h
    have hget : dictGet inputs "scores" = Except.ok ts := by
      unfold dictGet
      rw [h]
    refine ⟨?_, ?_, lookup_delItem_self _ _ hnd⟩
    · unfold DistilTrainer.compute_loss
      rw [hget]
    · unfold RerankerTrainer2.compute_loss
      rw [hget]

/-- Witness for C10: on an empty batch both trainers report the KeyError for
"scores"; on a batch holding only "scores" the returned batch no longer
contains "scores". -/
theorem c10_witness :
    DistilTrainer.compute_loss false false true (0:ℝ) 0
        (fun _ => (fun (_ : Fin 1) (_ : Fin 1) => (0:ℝ),
                   fun (_ : Fin 1) (_ : Fin 1) (_ : Fin 1) => (0:ℝ)))
        (fun (_ : ℚ) (_ : Fin 1) (_ : Fin 1) => (0:ℝ)) []
      = .error "scores"
    ∧ RerankerTrainer2.compute_loss (B := 1) (N := 0) false
        (fun (_ : Inputs ℚ) (_ : Fin (1 * 1)) => (0:ℝ))
        (fun (_ : ℚ) (_ : Fin 1) (_ : Fin 1) => (0:ℝ)) []
      = .error "scores"
    ∧ List.lookup "scores"
        (delItem [(("scores" : String), (0:ℚ))] "scores") = none := by
  have h1 := (c10_distil_trainers_require_scores (D := 1) false false true
    (0:ℝ) 0
    (fun _ => (fun (_ : Fin 1) (_ : Fin 1) => (0:ℝ),
               fun (_ : Fin 1) (_ : Fin 1) (_ : Fin 1) => (0:ℝ)))
    (fun (_ : Inputs ℚ) (_ : Fin (1 * 1)) => (0:ℝ))
    (fun (_ : ℚ) (_ : Fin 1) (_ : Fin 1) => (0:ℝ))
    [] (by simp)).1 rfl
  have h2 := (c10_distil_trainers_require_scores (D := 1) false false true
    (0:ℝ) 0
    (fun _ => (fun (_ : Fin 1) (_ : Fin 1) => (0:ℝ),
               fun (_ : Fin 1) (_ : Fin 1) (_ : Fin 1) => (0:ℝ)))
    (fun (_ : Inputs ℚ) (_ : Fin (1 * 1)) => (0:ℝ))
    (fun (_ : ℚ) (_ : Fin 1) (_ : Fin 1) => (0:ℝ))
    [(("scores" : String), (0:ℚ))] (by simp)).2 0 rfl
  exact ⟨h1.1, h1.2, h2.2.2⟩

end Splade
